import Mathlib

/-!
Verification of the zero-infra-mod-registry core against its specification.

The development shallowly embeds the Python sources:
  - src/zero_infra_mod_registry/utils/redirect_manager.py
  - src/zero_infra_mod_registry/utils/path_utils.py
  - src/zero_infra_mod_registry/retriever/github_mod_metadata_retriever.py
  - src/zero_infra_mod_registry/registry/filesystem_package_registry.py

Pure functions become Lean functions; the filesystem-backed registry becomes
explicit state passing over a record of the persisted file contents.  External
collaborators (the GitHub client, the `requests` downloads, and the third-party
`semver` / `semantic_version` libraries) are abstracted as parameters, exactly
at the call boundary where the source invokes them.

String primitives (split, strip, startswith, join) are re-implemented on
`List Char` so that every definition is executable and kernel-reducible; each
helper documents the Python primitive it mirrors.
-/

namespace ZeroInfra

/-! ### Python string primitives, re-implemented on character lists -/

/-- Mirrors Python `sub == s[:len(sub)]`: is `sub` an initial segment of `l`? -/
def listIsPre : List Char → List Char → Bool
  | [], _ => true
  | _ :: _, [] => false
  | a :: as, b :: bs => a = b && listIsPre as bs

/-- Mirrors Python `sub in s`: does `sub` occur contiguously in `l`? -/
def listHasSub (sub : List Char) : List Char → Bool
  | [] => sub.isEmpty
  | c :: rest => listIsPre sub (c :: rest) || listHasSub sub rest

/-- Python `sub in s` on strings (substring containment test). -/
def strHasSub (s sub : String) : Bool :=
  listHasSub sub.data s.data

/-- Propositional substring containment: `sub` occurs contiguously in `s`.
Used to state that an error message mentions a given fragment. -/
def MentionsStr (s sub : String) : Prop :=
  ∃ a b : List Char, s.data = a ++ sub.data ++ b

/-- Fuelled worker for Python `str.split(sep)` (`sep` nonempty): scans left to
right for non-overlapping occurrences of `sep`, accumulating the current
segment reversed in `acc`.  The fuel starts at the length of the scanned list
and dominates it throughout, so the fuel-exhausted row is unreachable. -/
def splitSepFuel (sep : List Char) : Nat → List Char → List Char → List (List Char)
  | _, [], acc => [acc.reverse]
  | 0, l, acc => [acc.reverse ++ l]
  | Nat.succ n, c :: rest, acc =>
    if listIsPre sep (c :: rest) then
      acc.reverse :: splitSepFuel sep n (List.drop sep.length (c :: rest)) []
    else
      splitSepFuel sep n rest (c :: acc)

/-- Python `s.split(sep)` for a nonempty separator. -/
def pySplit (sep s : String) : List String :=
  (splitSepFuel sep.data s.data.length s.data []).map String.mk

/-- Python `s.strip()`: drop ASCII whitespace from both ends. -/
def pyStrip (s : String) : String :=
  String.mk (((s.data.dropWhile Char.isWhitespace).reverse.dropWhile Char.isWhitespace).reverse)

/-- Python `s.rstrip("/")`: drop all trailing slashes. -/
def pyRstripSlash (s : String) : String :=
  String.mk ((s.data.reverse.dropWhile (· = '/')).reverse)

/-- Python `s.startswith(c)` for a single-character head test. -/
def strStartsWithChar (c : Char) (s : String) : Bool :=
  match s.data with
  | [] => false
  | c0 :: _ => c0 = c

/-- Python `s.endswith(suffix)`. -/
def strEndsWithStr (suffix s : String) : Bool :=
  listIsPre suffix.data.reverse s.data.reverse

/-- Python `sep.join(parts)`. -/
def joinSep (sep : String) : List String → String
  | [] => ""
  | [x] => x
  | x :: y :: rest => x ++ sep ++ joinSep sep (y :: rest)

/-- Python `str.splitlines()` for newline-terminated text: split on the
newline character and drop the final empty segment produced by a trailing
newline (the empty string yields no lines at all). -/
def pySplitlines (s : String) : List String :=
  if s.data = [] then []
  else
    let parts := pySplit "\n" s
    if s.data.getLast? = some '\n' then parts.dropLast else parts

/-- Python truthiness of an `Optional[str]`: `None` and the empty string are
falsy, every other string is truthy. -/
def pyTruthyOptStr : Option String → Bool
  | none => false
  | some s => s.data ≠ []

/-- Python `repr` of a list of strings, as interpolated by an f-string:
`['a', 'b']`. -/
def pyListRepr (l : List String) : String :=
  "[" ++ joinSep ", " (l.map (fun s => "'" ++ s ++ "'")) ++ "]"

/-! ### The redirect dictionary

Python `dict` built by a comprehension: later bindings for the same key
overwrite earlier ones.  We model it as an association list with unique keys
maintained by `dictInsert`; `dictGet` is dictionary lookup. -/

/-- Insert-or-overwrite, mirroring `d[k] = v` on a Python dict. -/
def dictInsert (d : List (String × String)) (k v : String) : List (String × String) :=
  if d.any (·.1 = k) then d.map (fun p => if p.1 = k then (k, v) else p)
  else d ++ [(k, v)]

/-- Dictionary lookup, mirroring `d[k]` / `k in d` on a Python dict. -/
def dictGet (d : List (String × String)) (k : String) : Option String :=
  (d.find? (·.1 = k)).map (·.2)

/-! ### Data model

`zero_infra_mod_registry/models.py` is imported throughout the sources but is
absent from the repository snapshot; the record types below are modelled from
the specification, section 3 (DATA MODEL), and from how the fields are consumed
by the code under `src/`. -/

/-- Modelled from the spec: `Repo: {org: string, name: string}`, the identity
key for all storage paths (models.py is absent from the snapshot). -/
structure Repo where
  org : String
  name : String
deriving DecidableEq, Repr

/-- Modelled from the spec: `str(repo)`, the `org/name` form used for GitHub
lookups and log messages (the tests pin `str(Repo("testorg","testrepo")) =
"testorg/testrepo"`). -/
def Repo.toStr (r : Repo) : String :=
  r.org ++ "/" ++ r.name

/-- Modelled from the spec: `repo.github_url()`, the canonical repository URL;
`add_package_release` recovers `[org, name]` as its last two path segments. -/
def Repo.github_url (r : Repo) : String :=
  "https://github.com/" ++ r.org ++ "/" ++ r.name

/-- Modelled from the spec: `Dependency: {repo_url, version}` where `version`
is a range expression such as `^1.0.0` or `>=1.0.0,<2.0.0`. -/
structure Dependency where
  repo_url : String
  version : String
deriving DecidableEq, Repr

/-- Modelled from the spec: `Manifest: {name, repo_url, mod_type, tags,
dependencies}` describing one release. -/
structure Manifest where
  name : String
  repo_url : String
  mod_type : String
  tags : List String
  dependencies : List Dependency
deriving DecidableEq, Repr

/-- Modelled from the spec: `Release: {tag, hash, pak_file_name, release_date,
manifest}`; the naive timestamp is carried as an integer instant. -/
structure Release where
  tag : String
  hash : String
  pak_file_name : String
  release_date : Int
  manifest : Manifest
deriving DecidableEq, Repr

/-- Modelled from the spec: `Mod: {latest_manifest, releases}`. -/
structure Mod where
  latest_manifest : Manifest
  releases : List Release
deriving DecidableEq, Repr

/-! ### Redirect Resolver — `utils/redirect_manager.py` -/

/-- Embeds `SimpleRedirectManager.parse_redirects`: keep stripped lines that are
nonempty and contain `" -> "`, split each on `" -> "`, and build the dict
from the first two segments (later duplicate sources overwrite earlier ones,
as in the Python dict comprehension). -/
def parse_redirects (redirect_lines : List String) : List (String × String) :=
  let parsed_lines :=
    redirect_lines.filterMap (fun line =>
      let line := pyStrip line
      if line.data ≠ [] ∧ strHasSub line " -> " then some (pySplit " -> " line) else none)
  parsed_lines.foldl (fun d parts => dictInsert d (parts.getD 0 "") (parts.getD 1 "")) []

/-- Fuelled embedding of `SimpleRedirectManager.resolve`: look the URL up in
the dict; if present recurse on the mapped value, otherwise return the URL.
The Python recursion is unbounded (it diverges on a cyclic table); `none`
marks fuel exhaustion, i.e. inputs on which the Python code would still be
recursing. -/
def resolveFuel (d : List (String × String)) : Nat → String → Option String
  | 0, _ => none
  | Nat.succ n, repo =>
    match dictGet d repo with
    | some result => resolveFuel d n result
    | none => some repo

/-- Embeds `SimpleRedirectManager.resolve`, given fuel `|d| + 1`, which suffices for
every chain that does not revisit a key: an acyclic chain passes through each
dictionary key at most once. -/
def resolve (d : List (String × String)) (repo : String) : Option String :=
  resolveFuel d (d.length + 1) repo

/-! ### Release Ingestion Pipeline — `retriever/github_mod_metadata_retriever.py`

The GitHub client, the `requests` downloads and the `semver` library are
external collaborators.  A `GitRelease` carries what `process_release` reads
off the GitHub release object; per asset, `content_hash` stands for the SHA-512
digest of the bytes served at its download URL (the download and `sha512_sum`
are external I/O), and `updated_at` for its timezone-stripped timestamp.
`semverParseErr` and `semverRangeErr` abstract `semver.Version.parse(s)` and
`Version.parse("1.0.0").match(s)` respectively: `none` means the library call
succeeds, `some e` means it raises `ValueError` with text `e`. -/

/-- One entry of `release.get_assets()`, restricted to the fields read by
`process_release` and `find_pak_file`. -/
structure GitAsset where
  name : String
  content_hash : String
  updated_at : Int
deriving DecidableEq, Repr

/-- One GitHub release object, restricted to the fields read by
`process_release` and `find_pak_file`. -/
structure GitRelease where
  tag_name : String
  assets : List GitAsset
deriving DecidableEq, Repr

/-- The list `VALID_TAGS` from `retriever/mod_metadata_retriever.py`. -/
def VALID_TAGS : List String :=
  ["Mutator", "Map", "Cosmetic", "Audio", "Model", "Weapon", "Doodad", "Explicit"]

/-- The list `VALID_MOD_TYPES` from `retriever/mod_metadata_retriever.py`. -/
def VALID_MOD_TYPES : List String :=
  ["Client", "Server", "Shared"]

/-- Embeds `GithubModMetadataRetriever.find_pak_file`: filter the assets whose name
ends in `.pak`; zero or more than one such asset yields the error string the
Python code returns (instead of an asset). -/
def find_pak_file (release : GitRelease) : Except String GitAsset :=
  let paks := release.assets.filter (fun asset => strEndsWithStr ".pak" asset.name)
  if paks.length = 0 then
    Except.error ("No pak file found for release " ++ release.tag_name ++ ".")
  else if paks.length > 1 then
    Except.error ("Multiple pak files found for release " ++ release.tag_name ++ ".")
  else
    match paks with
    | pak :: _ => Except.ok pak
    | [] => Except.error ""

/-- Python `if s.startswith("v"): s = s[1:]`, shared by the tag and the
dependency-range validators and by `_find_dependency`. -/
def stripLeadingV (s : String) : String :=
  match s.data with
  | c :: rest => if c = 'v' then String.mk rest else s
  | [] => s

/-- Embeds `GithubModMetadataRetriever.validate_version_tag_name`: strip one leading
`v`, then try `semver.Version.parse`; on `ValueError` report the offending
(stripped) tag. -/
def validate_version_tag_name (semverParseErr : String → Option String)
    (tag_name : String) : Option String :=
  let tag_name := stripLeadingV tag_name
  match semverParseErr tag_name with
  | none => none
  | some e =>
    some ("Version Tag '" ++ tag_name ++ "' Does not conform to the semver spec: " ++ e)

/-- Embeds `GithubModMetadataRetriever.validate_dependency_versions`: per dependency,
strip one leading `v`, rewrite a caret range `^x` to `>=x`, then validate the
range with the `semver` library — comma-separated ranges clause by clause
(stripped of surrounding whitespace), stopping at the first clause on which
the library raises, as the Python `try` block does. -/
def validate_dependency_versions (semverRangeErr : String → Option String)
    (dependencies : List Dependency) : List String :=
  dependencies.filterMap (fun dependency =>
    let r0 := stripLeadingV dependency.version
    let r1 :=
      match r0.data with
      | '^' :: rest => ">=" ++ String.mk rest
      | _ => r0
    let err : Option String :=
      if strHasSub r1 "," then
        (pySplit "," r1).findSome? (fun part => semverRangeErr (pyStrip part))
      else
        semverRangeErr r1
    match err with
    | none => none
    | some e =>
      let dependency_name :=
        let parts := pySplit "/" dependency.repo_url
        joinSep "/" (parts.drop (parts.length - 2))
      some ("Version Range '" ++ dependency.version ++ "' for dependency '"
        ++ dependency_name ++ "' does not conform to the semver spec: " ++ e))

/-- Embeds `GithubModMetadataRetriever.validate_tags`: every manifest tag must belong
to `VALID_TAGS`. -/
def validate_tags (tags : List String) : Option String :=
  let invalid_tags := tags.filter (fun tag => ¬ tag ∈ VALID_TAGS)
  if invalid_tags.length > 0 then
    some ("Invalid tags: " ++ pyListRepr invalid_tags ++ ". Valid tags are: "
      ++ pyListRepr VALID_TAGS)
  else
    none

/-- Embeds `GithubModMetadataRetriever.validate_mod_type`: the manifest mod type must
belong to `VALID_MOD_TYPES`. -/
def validate_mod_type (mod_type : String) : Option String :=
  if ¬ mod_type ∈ VALID_MOD_TYPES then
    some ("Invalid mod type: " ++ mod_type ++ ". Valid types are: "
      ++ pyListRepr VALID_MOD_TYPES)
  else
    none

/-- The `all_errors` list collected by `process_release`: the four optional
errors (in source order) followed by the dependency errors. -/
def release_validation_errors (semverParseErr semverRangeErr : String → Option String)
    (manifest : Manifest) (release : GitRelease) : List String :=
  let pak_error : Option String :=
    match find_pak_file release with
    | Except.error e => some e
    | Except.ok _ => none
  let tag_error := validate_tags manifest.tags
  let mod_type_error := validate_mod_type manifest.mod_type
  let dependency_errors := validate_dependency_versions semverRangeErr manifest.dependencies
  let tag_name_error := validate_version_tag_name semverParseErr release.tag_name
  ([pak_error, tag_error, mod_type_error, tag_name_error].filterMap id) ++ dependency_errors

/-- The aggregated `Exception` message raised by `process_release` when any
validation rule fails. -/
def validation_error_message (repo : Repo) (tag_name : String) (all_errors : List String) :
    String :=
  "Mod manifest " ++ Repo.toStr repo ++ " " ++ tag_name ++ " failed validation: "
    ++ ("\n\t" ++ joinSep "\n\t" all_errors)

/-- Embeds `GithubModMetadataRetriever.process_release`, from the point where
`mod.json` has been fetched and parsed into `raw_manifest` (the download and
`Manifest.from_dict` are external I/O): stamp `repo_url` with the canonical
repository URL, run all five validation rules, and either raise the aggregated
validation error or build the `Release` record from the unique pak asset.
The Python condition tests each component for truthiness; the unreachable
`assert` arm (an error-string pak together with an all-falsy condition) is
mapped to `Except.error` of the assertion text. -/
def process_release (semverParseErr semverRangeErr : String → Option String)
    (repo : Repo) (raw_manifest : Manifest) (release : GitRelease) : Except String Release :=
  let manifest := { raw_manifest with repo_url := Repo.github_url repo }
  let pak := find_pak_file release
  let pak_error : Option String :=
    match pak with
    | Except.error e => some e
    | Except.ok _ => none
  let tag_error := validate_tags manifest.tags
  let mod_type_error := validate_mod_type manifest.mod_type
  let dependency_errors := validate_dependency_versions semverRangeErr manifest.dependencies
  let tag_name_error := validate_version_tag_name semverParseErr release.tag_name
  if pyTruthyOptStr pak_error || pyTruthyOptStr tag_error || pyTruthyOptStr mod_type_error
      || ¬ dependency_errors.isEmpty || pyTruthyOptStr tag_name_error then
    let all_errors :=
      ([pak_error, tag_error, mod_type_error, tag_name_error].filterMap id) ++ dependency_errors
    Except.error (validation_error_message repo release.tag_name all_errors)
  else
    match pak with
    | Except.ok pak_asset =>
      Except.ok
        { tag := release.tag_name
          hash := pak_asset.content_hash
          pak_file_name := pak_asset.name
          release_date := pak_asset.updated_at
          manifest := manifest }
    | Except.error _ => Except.error "Expected GitReleaseAsset but got error string"

/-- The sort performed by `fetch_all_releases` and `update_mod_with_release`:
Python `list.sort(key=lambda x: x.release_date, reverse=True)` is the stable
descending sort by release date; a stable sort has a unique result, so the
structural insertion sort below computes exactly it. -/
def sortReleasesDesc (rs : List Release) : List Release :=
  rs.insertionSort (fun a b => b.release_date ≤ a.release_date)

/-- Embeds `GithubModMetadataRetriever.update_mod_with_release`: append the release,
re-sort newest-first, and recompute `latest_manifest` from the head.  The
sorted list is provably nonempty, so the `headD` fallback is never taken. -/
def update_mod_with_release (mod : Mod) (release : Release) : Mod :=
  let mod_releases := sortReleasesDesc (mod.releases ++ [release])
  { latest_manifest := (mod_releases.headD release).manifest
    releases := mod_releases }

/-- Embeds `GithubModMetadataRetriever.fetch_all_releases`, abstracted over GitHub:
`processed` stands for the releases that `process_release` accepted, in
repository order; the function sorts them newest-first. -/
def fetch_all_releases (processed : List Release) : List Release :=
  sortReleasesDesc processed

/-- Embeds `GithubModMetadataRetriever.fetch_repo_metadata`, abstracted over GitHub:
`none` when there is no valid release, otherwise the `Mod` whose
`latest_manifest` is the manifest of the newest release. -/
def fetch_repo_metadata (processed : List Release) : Option Mod :=
  let releases := fetch_all_releases processed
  match releases with
  | [] => none
  | r :: _ => some { latest_manifest := r.manifest, releases := releases }

/-! ### Filesystem package registry — `registry/filesystem_package_registry.py`

The registry object reads and rewrites whole files; we model the persisted
state explicitly.  Directories of declaration files are association lists from
file name to file content; the single index and redirect files are optional
strings (`none` = the file does not exist); the per-package JSON records and
the per-repo registry entries are keyed by `(org, name)`.  JSON
serialisation of a `Mod` is treated as the identity round-trip (the spec's
round-trip property); directory creation and removal of empty org directories
are implicit in the keyed stores. -/

/-- Generic keyed store update, mirroring a whole-file write at a path. -/
def storeSet {α : Type} (ps : List ((String × String) × α)) (k : String × String) (v : α) :
    List ((String × String) × α) :=
  if ps.any (·.1 = k) then ps.map (fun p => if p.1 = k then (k, v) else p)
  else ps ++ [(k, v)]

/-- Generic keyed store lookup, mirroring opening the file at a path. -/
def storeGet {α : Type} (ps : List ((String × String) × α)) (k : String × String) : Option α :=
  (ps.find? (·.1 = k)).map (·.2)

/-- Generic keyed store deletion, mirroring `os.remove` of the file at a path. -/
def storeDel {α : Type} (ps : List ((String × String) × α)) (k : String × String) :
    List ((String × String) × α) :=
  ps.filter (fun p => ¬ p.1 = k)

/-- Embeds, from `utils/path_utils.py`, `repo_to_index_entry`: strip, drop trailing path
separators, and keep the last two `/`-separated segments. -/
def repo_to_index_entry (repo : String) : String :=
  let repo := pyRstripSlash (pyStrip repo)
  let parts := pySplit "/" repo
  joinSep "/" (parts.drop (parts.length - 2))

/-- Embeds `FilesystemPackageRegistry._get_all_text_lines_in_directory`: all lines of
all files in the directory, stripped, skipping empty lines and lines starting
with `#`. -/
def get_all_text_lines_in_directory (dir : List (String × String)) : List String :=
  dir.flatMap (fun file =>
    (pySplitlines file.2).filterMap (fun line =>
      let line := pyStrip line
      if ¬ strStartsWithChar '#' line ∧ line.data ≠ [] then some line else none))

/-- Embeds `FilesystemPackageRegistry._load_package_list`: the lines of the file, or
`[]` when the file does not exist. -/
def load_package_list (content : Option String) : List String :=
  match content with
  | none => []
  | some c => pySplitlines c

/-- Embeds `FilesystemPackageRegistry._generate_package_list`. -/
def generate_package_list (dir : List (String × String)) : List String :=
  (get_all_text_lines_in_directory dir).map repo_to_index_entry

/-- The persisted state of one registry instance: the declaration sources under
`registry_path` (top-level files and the `redirects` subdirectory), the per-repo
entry files `registry_path/org/name.txt`, the two files under
`package_db_path`, the package records `packages/org/name.json`, and the
in-memory redirect table of the instance. -/
structure RegistryState where
  registryTopFiles : List (String × String)
  redirectDirFiles : List (String × String)
  registryRepoFiles : List ((String × String) × String)
  redirectsFile : Option String
  indexFile : Option String
  packages : List ((String × String) × Mod)
  activeRedirects : List (String × String)
deriving DecidableEq, Repr

/-- The injected `ModMetadataRetriever` capability (external interface of
section 6 of the spec), as consumed by the registry. -/
structure Retriever where
  fetch_repo_metadata : Repo → Option Mod
  fetch_release_metadata : Mod → String → Option Release
  update_mod_with_release : Mod → Release → Mod

/-- One invocation of the fetch capability, recorded so that theorems can
state that an operation did or did not call the retriever. -/
inductive FetchCall where
  | repo (r : Repo)
  | release (mod : Mod) (tag : String)
deriving DecidableEq, Repr

/-- Embeds `FilesystemPackageRegistry.load_mod`: read the package record, `none` when
the file does not exist. -/
def load_mod (s : RegistryState) (repo : Repo) : Option Mod :=
  storeGet s.packages (repo.org, repo.name)

/-- Embeds `FilesystemPackageRegistry._is_package_in_index`. -/
def is_package_in_index (s : RegistryState) (repo : Repo) : Bool :=
  (load_package_list s.indexFile).contains (repo.org ++ "/" ++ repo.name)

/-- Python `l[-i]` on a list of strings (the registry code applies it only to
lists long enough for the access to succeed). -/
def pyNegIdx (l : List String) (i : Nat) : String :=
  l.getD (l.length - i) ""

/-- The body of the per-mod loop of `FilesystemPackageRegistry.add_package`:
parse org and repo name from `latest_manifest.repo_url` (a trailing slash
shifts the parse by one segment), write the package record, then scan every
`.txt` file under `registry_path` (`os.walk` visits the top-level files, the
`redirects` subdirectory and the per-repo entry files) and write the per-repo
entry file only when neither the URL nor the index entry occurs in any of
them. -/
def add_package_write (s : RegistryState) (mod : Mod) : RegistryState :=
  let url_parts := pySplit "/" mod.latest_manifest.repo_url
  let org0 := pyNegIdx url_parts 2
  let repoName0 := pyNegIdx url_parts 1
  let org := if repoName0.data = [] then pyNegIdx url_parts 3 else org0
  let repoName := if repoName0.data = [] then pyNegIdx url_parts 2 else repoName0
  let packages := storeSet s.packages (org, repoName) mod
  let repo_url := mod.latest_manifest.repo_url
  let index_entry := org ++ "/" ++ repoName
  let txt_contents :=
    (s.registryTopFiles.filterMap (fun f => if strEndsWithStr ".txt" f.1 then some f.2 else none))
      ++ (s.redirectDirFiles.filterMap (fun f => if strEndsWithStr ".txt" f.1 then some f.2 else none))
      ++ s.registryRepoFiles.map (·.2)
  let found := txt_contents.any (fun content =>
    strHasSub content repo_url || strHasSub content index_entry)
  let registryRepoFiles :=
    if found then s.registryRepoFiles
    else storeSet s.registryRepoFiles (org, repoName) (repo_url ++ "\n")
  { s with packages := packages, registryRepoFiles := registryRepoFiles }

/-- Embeds `FilesystemPackageRegistry.add_package`: fetch metadata for every repo; if
any fetch came back absent, fail the whole batch with result 0 and no write;
otherwise validate (`validate_package_db` is a report-only check with no state
effect, cf. `missing_dependencies` below), honour the trial-run flag, and
otherwise write every package record and registry entry. -/
def add_package (rt : Retriever) (s : RegistryState) (repos : List Repo) (dry_run : Bool) :
    Nat × RegistryState × List FetchCall :=
  let mods := repos.map rt.fetch_repo_metadata
  let calls := repos.map FetchCall.repo
  let filtered_mods := mods.filterMap id
  if ¬ filtered_mods.length = repos.length then (0, s, calls)
  else if dry_run then (filtered_mods.length, s, calls)
  else (filtered_mods.length, filtered_mods.foldl add_package_write s, calls)

/-- Embeds `FilesystemPackageRegistry.remove_mods`: in a trial run, count the package
records that exist; otherwise delete each record that exists (removal of an
emptied org directory is implicit in the keyed store).  `validate_package_db`
is report-only and has no state effect. -/
def remove_mods (s : RegistryState) (repo_list : List Repo) (dry_run : Bool) :
    Nat × RegistryState :=
  if dry_run then
    ((repo_list.filter (fun repo => (storeGet s.packages (repo.org, repo.name)).isSome)).length, s)
  else
    repo_list.foldl (fun acc repo =>
      if (storeGet acc.2.packages (repo.org, repo.name)).isSome then
        (acc.1 + 1, { acc.2 with packages := storeDel acc.2.packages (repo.org, repo.name) })
      else acc) (0, s)

/-- Embeds `FilesystemPackageRegistry.add_package_release`: raise when the package is
not in the index; initialise it when it has no record; report 0 without calling
the fetch capability when the tag already exists; otherwise fetch the release,
update the mod (through the injected retriever), validate (report-only), and
persist unless this is a trial run. -/
def add_package_release (rt : Retriever) (s : RegistryState) (repo : Repo)
    (release_tag : String) (dry_run : Bool) :
    Except String Nat × RegistryState × List FetchCall :=
  if ¬ is_package_in_index s repo then
    (Except.error ("Package " ++ Repo.toStr repo
      ++ " is not in the package list. Add it first using the 'add_package' command."), s, [])
  else
    match load_mod s repo with
    | none =>
      let r := add_package rt s [repo] dry_run
      (Except.ok r.1, r.2.1, r.2.2)
    | some mod =>
      let tags := mod.releases.map (·.tag)
      if release_tag ∈ tags then (Except.ok 0, s, [])
      else
        match rt.fetch_release_metadata mod release_tag with
        | none => (Except.ok 0, s, [FetchCall.release mod release_tag])
        | some release =>
          let updated_mod := rt.update_mod_with_release mod release
          if dry_run then (Except.ok 1, s, [FetchCall.release mod release_tag])
          else
            let url_parts := pySplit "/" (Repo.github_url repo)
            let org := pyNegIdx url_parts 2
            let repoName := pyNegIdx url_parts 1
            (Except.ok 1,
              { s with packages := storeSet s.packages (org, repoName) updated_mod },
              [FetchCall.release mod release_tag])

/-- Embeds `FilesystemPackageRegistry.process_registry_updates`: refresh the redirect
file and the in-memory redirect table (suppressed in a trial run), diff the
discovered package list against the persisted index, apply additions through
`add_package` and removals through `remove_mods`, and finally rewrite the index
file unless a phase failed or this is a trial run.

In the source, `failed` is set only when a phase raises; the modelled raise is
the `IndexError` of `Repo(entry[0], entry[1])` on an entry without a slash
(file-write errors are not modelled).  `add_package` reporting failure by
returning 0 does not raise and therefore does not set `failed`.

`list(set(a) - set(b))` iterates a Python set in unspecified order; the
deduplicated filter below fixes one admissible order, on which nothing proved
here depends. -/
def process_registry_updates (rt : Retriever) (s : RegistryState) (dry_run : Bool) :
    Bool × RegistryState × List FetchCall :=
  let redirect_lines := get_all_text_lines_in_directory s.redirectDirFiles
  let redirect_manager := parse_redirects redirect_lines
  let s1 :=
    if ¬ dry_run then
      { s with redirectsFile := some (joinSep "\n" redirect_lines)
               activeRedirects := redirect_manager }
    else s
  let updated_index_entries := generate_package_list s1.registryTopFiles
  let previous_index_entries := load_package_list s1.indexFile
  let new_entries := (updated_index_entries.filter (fun e => ¬ e ∈ previous_index_entries)).dedup
  let removed_entries := (previous_index_entries.filter (fun e => ¬ e ∈ updated_index_entries)).dedup
  let step1 : Bool × RegistryState × List FetchCall :=
    if new_entries.length > 0 then
      let split_entries := new_entries.map (pySplit "/")
      if split_entries.any (fun parts => parts.length < 2) then (true, s1, [])
      else
        let repo_entries := split_entries.map (fun parts =>
          Repo.mk (parts.getD 0 "") (parts.getD 1 ""))
        let r := add_package rt s1 repo_entries dry_run
        (false, r.2.1, r.2.2)
    else (false, s1, [])
  let failed1 := step1.1
  let s2 := step1.2.1
  let calls1 := step1.2.2
  let step2 : Bool × RegistryState :=
    if removed_entries.length > 0 then
      let split_entries := removed_entries.map (pySplit "/")
      if split_entries.any (fun parts => parts.length < 2) then (true, s2)
      else
        let repo_entries := split_entries.map (fun parts =>
          Repo.mk (parts.getD 0 "") (parts.getD 1 ""))
        (false, (remove_mods s2 repo_entries dry_run).2)
    else (false, s2)
  let failed2 := step2.1
  let s3 := step2.2
  if failed1 || failed2 then (false, s3, calls1)
  else if dry_run then (true, s3, calls1)
  else (true, { s3 with indexFile := some (joinSep "\n" updated_index_entries) }, calls1)

/-! ### Dependency Validator — `validate_package_db` and `_find_dependency`

`validate_package_db` loads the indexed package records, then computes the
list `missing_deps` of `(release, dependency)` pairs for which
`_find_dependency` finds no satisfying release, and reports it (the check is
report-only: it never mutates state).  `vsat tag range` abstracts the
`semantic_version` library test `Version(tag) in SimpleSpec(range)` applied to
the `v`-stripped tag and range. -/

/-- Embeds `FilesystemPackageRegistry._find_dependency`: the first release of the
first mod whose redirect-resolved manifest URL equals the redirect-resolved
dependency URL and whose `v`-stripped tag satisfies the `v`-stripped range. -/
def find_dependency (vsat : String → String → Bool) (redirects : List (String × String))
    (mods : List Mod) (dep : Dependency) : Option Release :=
  mods.findSome? (fun mod =>
    mod.releases.find? (fun release =>
      decide (resolve redirects release.manifest.repo_url = resolve redirects dep.repo_url)
        && vsat (stripLeadingV release.tag) (stripLeadingV dep.version)))

/-- The `missing_deps` list computed by
`FilesystemPackageRegistry.validate_package_db` over a list of mods: every
`(release, dependency)` of every mod for which `_find_dependency` comes back
empty, in iteration order. -/
def missing_dependencies (vsat : String → String → Bool) (redirects : List (String × String))
    (mods : List Mod) : List (Release × Dependency) :=
  mods.flatMap (fun mod =>
    mod.releases.flatMap (fun release =>
      release.manifest.dependencies.filterMap (fun dep =>
        match find_dependency vsat redirects mods dep with
        | none => some (release, dep)
        | some _ => none)))

/-! ### Data-model invariant (spec section 3)

`Mod.releases` is ordered newest-first by `release_date`, and `latest_manifest`
always equals the manifest of `releases[0]`. -/

/-- The releases list is ordered newest-first by release date. -/
def releases_sorted_newest_first (rs : List Release) : Prop :=
  rs.Sorted (fun a b => b.release_date ≤ a.release_date)

/-- The spec invariant on a `Mod`: releases sorted newest-first, and
`latest_manifest` equal to the manifest of the head release (which in
particular requires the releases list to be nonempty). -/
def mod_invariant (m : Mod) : Prop :=
  releases_sorted_newest_first m.releases ∧
  m.releases.head?.map (·.manifest) = some m.latest_manifest

instance : IsTotal Release (fun a b => b.release_date ≤ a.release_date) :=
  ⟨fun a b => (Int.le_total a.release_date b.release_date).symm⟩

instance : IsTrans Release (fun a b => b.release_date ≤ a.release_date) :=
  ⟨fun _ _ _ hab hbc => le_trans hbc hab⟩

/-! ### Concrete fixtures used by witness and counterexample theorems -/

/-- A minimal valid manifest. -/
def manifest0 : Manifest :=
  { name := "m", repo_url := "u", mod_type := "Client", tags := [], dependencies := [] }

/-- A release of `manifest0` tagged `v1.0.0`. -/
def release0 : Release :=
  { tag := "v1.0.0", hash := "h", pak_file_name := "f.pak", release_date := 0,
    manifest := manifest0 }

/-- The mod holding exactly `release0`. -/
def mod0 : Mod := { latest_manifest := manifest0, releases := [release0] }

/-- A retriever whose fetches always come back absent. -/
def retriever0 : Retriever := ⟨fun _ => none, fun _ _ => none, fun m _ => m⟩

/-- A registry state indexing `testorg/testrepo` with stored record `mod0`. -/
def state0 : RegistryState :=
  { registryTopFiles := [], redirectDirFiles := [], registryRepoFiles := [],
    redirectsFile := none, indexFile := some "testorg/testrepo",
    packages := [(("testorg", "testrepo"), mod0)], activeRedirects := [] }

/-- A registry state with no files at all. -/
def stateEmpty : RegistryState :=
  { registryTopFiles := [], redirectDirFiles := [], registryRepoFiles := [],
    redirectsFile := none, indexFile := none, packages := [], activeRedirects := [] }

/-- A semver-parse stub accepting exactly the version `1.2.3`. -/
def semverAccepts123 : String → Option String :=
  fun s => if s = "1.2.3" then none else some "not 1.2.3"

/-- A semver stub on which the library never raises. -/
def semverOkStub : String → Option String := fun _ => none

/-- A semver stub on which the library always raises. -/
def semverFailStub : String → Option String := fun _ => some "parse failure"

/-- A single pak asset. -/
def asset6 : GitAsset := { name := "a.pak", content_hash := "h", updated_at := 5 }

/-- A stored mod for repository `a/a` with no releases. -/
def modA1 : Mod :=
  { latest_manifest := { name := "a", repo_url := "https://github.com/a/a",
                         mod_type := "Client", tags := [], dependencies := [] }
    releases := [] }

/-- A stored mod for repository `b/b` with no releases. -/
def modB1 : Mod :=
  { latest_manifest := { name := "b", repo_url := "https://github.com/b/b",
                         mod_type := "Client", tags := [], dependencies := [] }
    releases := [] }

/-- The reconciliation scenario of claim C1: persisted index `{a/a, b/b}`,
declaration sources discovering `{b/b, c/c}`, stored records for `a/a` and
`b/b`. -/
def stateC1 : RegistryState :=
  { registryTopFiles := [("pkgs.txt", "b/b\nc/c\n")]
    redirectDirFiles := []
    registryRepoFiles := []
    redirectsFile := none
    indexFile := some "a/a\nb/b"
    packages := [(("a", "a"), modA1), (("b", "b"), modB1)]
    activeRedirects := [] }

/-! ## Theorems -/

/-! ### Helper lemmas about the redirect dictionary and `resolve` -/

theorem dictGet_exists_mem {d : List (String × String)} {k v : String}
    (h : dictGet d k = some v) : ∃ p ∈ d, p.1 = k := by
  unfold dictGet at h
  cases hf : d.find? (·.1 = k) with
  | none => rw [hf] at h; simp at h
  | some p =>
    refine ⟨p, List.mem_of_find?_eq_some hf, ?_⟩
    have := List.find?_some hf
    exact of_decide_eq_true this

theorem dictGet_isSome_length_pos {d : List (String × String)} {k v : String}
    (h : dictGet d k = some v) : 0 < d.length := by
  obtain ⟨p, hp, -⟩ := dictGet_exists_mem h
  exact List.length_pos_of_mem hp

theorem dictGet_two_keys_length {d : List (String × String)} {a b va vb : String}
    (hab : a ≠ b) (ha : dictGet d a = some va) (hb : dictGet d b = some vb) :
    2 ≤ d.length := by
  obtain ⟨p, hp, hpk⟩ := dictGet_exists_mem ha
  obtain ⟨q, hq, hqk⟩ := dictGet_exists_mem hb
  have hpq : q ≠ p := by
    intro h
    exact hab (by rw [← hpk, ← hqk, h])
  have herase : q ∈ d.erase p := (List.mem_erase_of_ne hpq).mpr hq
  have hlen : (d.erase p).length = d.length - 1 := List.length_erase_of_mem hp
  have hpos : 0 < (d.erase p).length := List.length_pos_of_mem herase
  omega

theorem resolveFuel_step_mapped {d : List (String × String)} {a b : String} (n : Nat)
    (h : dictGet d a = some b) : resolveFuel d (n + 1) a = resolveFuel d n b := by
  simp [resolveFuel, h]

theorem resolveFuel_step_unmapped {d : List (String × String)} {a : String} (n : Nat)
    (h : dictGet d a = none) : resolveFuel d (n + 1) a = some a := by
  simp [resolveFuel, h]

/-- C3: for every redirect table, every redirect chain `A → B → C` with `C`
unmapped resolves from each of its points to the final target `C`
(`resolve A = resolve B = resolve C = C`), and `resolve` is the identity on
every URL not mapped by the table.  (Stated without an acyclicity side
condition: the chain hypotheses themselves bound the recursion, so this is
stronger than the claim, which assumes a cycle-free table.) -/
theorem C3_redirect_chain_resolution :
    (∀ (d : List (String × String)) (A B C : String),
      dictGet d A = some B → dictGet d B = some C → dictGet d C = none →
      resolve d A = some C ∧ resolve d B = some C ∧ resolve d C = some C) ∧
    (∀ (d : List (String × String)) (X : String),
      dictGet d X = none → resolve d X = some X) := by
  constructor
  · intro d A B C h1 h2 h3
    have hAB : A ≠ B := by
      intro h
      rw [h, h2] at h1
      have hBC : B = C := (Option.some.inj h1).symm
      rw [hBC] at h2
      rw [h2] at h3
      exact Option.noConfusion h3
    have hlen2 : 2 ≤ d.length := dictGet_two_keys_length hAB h1 h2
    have hlen1 : 0 < d.length := dictGet_isSome_length_pos h1
    refine ⟨?_, ?_, ?_⟩
    · obtain ⟨m, hm⟩ : ∃ m, d.length + 1 = m + 3 := ⟨d.length - 2, by omega⟩
      unfold resolve
      rw [hm, resolveFuel_step_mapped (m + 2) h1, resolveFuel_step_mapped (m + 1) h2,
        resolveFuel_step_unmapped m h3]
    · obtain ⟨m, hm⟩ : ∃ m, d.length + 1 = m + 2 := ⟨d.length - 1, by omega⟩
      unfold resolve
      rw [hm, resolveFuel_step_mapped (m + 1) h2, resolveFuel_step_unmapped m h3]
    · unfold resolve
      rw [resolveFuel_step_unmapped d.length h3]
  · intro d X h
    unfold resolve
    rw [resolveFuel_step_unmapped d.length h]

/-- Witness for C3 at the concrete table `a → b → c`: both conjuncts applied at
explicit inputs with the hypotheses discharged by evaluation. -/
theorem C3_redirect_chain_resolution_witness :
    resolve [("a", "b"), ("b", "c")] "a" = some "c" ∧
    resolve [("a", "b"), ("b", "c")] "x" = some "x" :=
  ⟨(C3_redirect_chain_resolution.1 [("a", "b"), ("b", "c")] "a" "b" "c"
      (by decide) (by decide) (by decide)).1,
    C3_redirect_chain_resolution.2 [("a", "b"), ("b", "c")] "x" (by decide)⟩

/-! ### C1: the index-persistence boundary -/

/-- C1, evaluated at the failing input: previous index `{a/a, b/b}`, discovered
set `{b/b, c/c}`, and a retriever whose fetch of `c/c` comes back absent, so
adding `c/c` fails (`add_package` logs the failure and returns 0 without
raising).  The run nevertheless returns `True` and rewrites the persisted
index to `{b/b, c/c}` — while `c/c` has no package record and the record of
`a/a` has been deleted — contradicting the claimed all-or-nothing behaviour
(run fails, index stays `{a/a, b/b}`) which only the raising failure path
implements. -/
theorem C1_failed_add_still_persists_index :
    retriever0.fetch_repo_metadata ⟨"c", "c"⟩ = none ∧
    stateC1.indexFile = some "a/a\nb/b" ∧
    (process_registry_updates retriever0 stateC1 false).1 = true ∧
    (process_registry_updates retriever0 stateC1 false).2.1.indexFile = some "b/b\nc/c" ∧
    (process_registry_updates retriever0 stateC1 false).2.2 = [FetchCall.repo ⟨"c", "c"⟩] ∧
    (process_registry_updates retriever0 stateC1 false).2.1.packages.map (·.1) = [("b", "b")] :=
  ⟨rfl, rfl, by decide, by decide, by decide, by decide⟩

/-! ### C2: the dependency validator -/

theorem find_dependency_isSome_iff (vsat : String → String → Bool)
    (redirects : List (String × String)) (mods : List Mod) (dep : Dependency) :
    (find_dependency vsat redirects mods dep).isSome = true ↔
      ∃ mod ∈ mods, ∃ release ∈ mod.releases,
        resolve redirects release.manifest.repo_url = resolve redirects dep.repo_url ∧
        vsat (stripLeadingV release.tag) (stripLeadingV dep.version) = true := by
  simp [find_dependency, List.findSome?_isSome_iff, List.find?_isSome, Bool.and_eq_true,
    decide_eq_true_eq]

/-- C2: the dependency validator applied to a set of mods reports exactly the
unsatisfied `(release, dependency)` pairs, and reports none precisely when
every declared dependency of every release of every mod is matched by some
release of some known mod (the dependent mod included) whose redirect-resolved
manifest URL equals the redirect-resolved dependency URL and whose v-stripped
tag satisfies the v-stripped range (`vsat` abstracts the semantic-version
containment test of the external library). -/
theorem C2_validator_empty_iff_all_satisfied (vsat : String → String → Bool)
    (redirects : List (String × String)) (mods : List Mod) :
    missing_dependencies vsat redirects mods = [] ↔
      ∀ mod ∈ mods, ∀ release ∈ mod.releases, ∀ dep ∈ release.manifest.dependencies,
        ∃ mod2 ∈ mods, ∃ release2 ∈ mod2.releases,
          resolve redirects release2.manifest.repo_url = resolve redirects dep.repo_url ∧
          vsat (stripLeadingV release2.tag) (stripLeadingV dep.version) = true := by
  unfold missing_dependencies
  simp only [List.flatMap_eq_nil_iff, List.filterMap_eq_nil_iff]
  constructor
  · intro h mod hm release hr dep hd
    have hmatch := h mod hm release hr dep hd
    rw [← find_dependency_isSome_iff vsat redirects mods dep]
    cases hfd : find_dependency vsat redirects mods dep with
    | none => rw [hfd] at hmatch; simp at hmatch
    | some r => simp
  · intro h mod hm release hr dep hd
    have hex := (find_dependency_isSome_iff vsat redirects mods dep).mpr (h mod hm release hr dep hd)
    cases hfd : find_dependency vsat redirects mods dep with
    | none => rw [hfd] at hex; simp at hex
    | some r => simp

/-- Witness for C2 at a concrete instantiation of the abstract version test,
redirect table and mod list. -/
theorem C2_validator_empty_iff_all_satisfied_witness :
    missing_dependencies (fun _ _ => true) [] [mod0] = [] ↔
      ∀ mod ∈ [mod0], ∀ release ∈ mod.releases, ∀ dep ∈ release.manifest.dependencies,
        ∃ mod2 ∈ [mod0], ∃ release2 ∈ mod2.releases,
          resolve [] release2.manifest.repo_url = resolve [] dep.repo_url ∧
          (fun _ _ => true) (stripLeadingV release2.tag) (stripLeadingV dep.version) = true :=
  C2_validator_empty_iff_all_satisfied (fun _ _ => true) [] [mod0]

/-! ### C7: the Mod invariant under the retriever operations -/

theorem sortReleasesDesc_sorted (rs : List Release) :
    releases_sorted_newest_first (sortReleasesDesc rs) :=
  List.sorted_insertionSort _ rs

theorem sortReleasesDesc_length (rs : List Release) :
    (sortReleasesDesc rs).length = rs.length :=
  (List.perm_insertionSort _ rs).length_eq

/-- C7: every `Mod` produced by the retriever operations satisfies the
data-model invariant: `update_mod_with_release` always returns an invariant
`Mod` (in particular on any invariant input), and every `Mod` that
`fetch_repo_metadata` returns is invariant. -/
theorem C7_retriever_preserves_mod_invariant :
    (∀ (mod : Mod) (release : Release), mod_invariant (update_mod_with_release mod release)) ∧
    (∀ (processed : List Release) (m : Mod),
      fetch_repo_metadata processed = some m → mod_invariant m) := by
  constructor
  · intro mod release
    unfold update_mod_with_release
    have hlen : (sortReleasesDesc (mod.releases ++ [release])).length =
        mod.releases.length + 1 := by
      rw [sortReleasesDesc_length, List.length_append, List.length_cons, List.length_nil]
    cases hs : sortReleasesDesc (mod.releases ++ [release]) with
    | nil => rw [hs] at hlen; simp at hlen
    | cons r rest =>
      constructor
      · have := sortReleasesDesc_sorted (mod.releases ++ [release])
        rw [hs] at this
        exact this
      · simp [hs]
  · intro processed m hm
    unfold fetch_repo_metadata fetch_all_releases at hm
    cases hs : sortReleasesDesc processed with
    | nil => rw [hs] at hm; simp at hm
    | cons r rest =>
      rw [hs] at hm
      simp only [Option.some.injEq] at hm
      subst hm
      constructor
      · have := sortReleasesDesc_sorted processed
        rw [hs] at this
        exact this
      · simp

/-- Witness for C7: the second conjunct applied at a concrete singleton
release list, with the fetch hypothesis discharged by evaluation. -/
theorem C7_retriever_preserves_mod_invariant_witness :
    mod_invariant
      { latest_manifest := { name := "m", repo_url := "u", mod_type := "Client",
                             tags := [], dependencies := [] }
        releases := [{ tag := "v1.0.0", hash := "h", pak_file_name := "f.pak",
                       release_date := 0,
                       manifest := { name := "m", repo_url := "u", mod_type := "Client",
                                     tags := [], dependencies := [] } }] } :=
  C7_retriever_preserves_mod_invariant.2
    [{ tag := "v1.0.0", hash := "h", pak_file_name := "f.pak", release_date := 0,
       manifest := { name := "m", repo_url := "u", mod_type := "Client",
                     tags := [], dependencies := [] } }] _ rfl

/-! ### Helper lemmas for the ingestion pipeline (C4, C5, C6) -/

theorem append_data_ne_nil (s t : String) (h : s.data ≠ []) : (s ++ t).data ≠ [] := by
  rw [String.data_append]
  intro hc
  exact h (List.append_eq_nil.mp hc).1

theorem pyTruthyOptStr_some_of_ne_nil {m : String} (h : m.data ≠ []) :
    pyTruthyOptStr (some m) = true := by
  simp [pyTruthyOptStr, h]

theorem find_pak_file_error_ne_nil {r : GitRelease} {e : String}
    (h : find_pak_file r = Except.error e) : e.data ≠ [] := by
  simp only [find_pak_file] at h
  split at h
  · injection h with he
    subst he
    exact append_data_ne_nil _ _ (append_data_ne_nil _ _ (by decide))
  · split at h
    · injection h with he
      subst he
      exact append_data_ne_nil _ _ (append_data_ne_nil _ _ (by decide))
    · split at h
      · exact absurd h (by simp)
      · simp_all

theorem validate_tags_error_ne_nil {tags : List String} {e : String}
    (h : validate_tags tags = some e) : e.data ≠ [] := by
  simp only [validate_tags] at h
  split at h
  · injection h with he
    subst he
    exact append_data_ne_nil _ _ (append_data_ne_nil _ _ (append_data_ne_nil _ _ (by decide)))
  · exact absurd h (by simp)

theorem validate_mod_type_error_ne_nil {mod_type : String} {e : String}
    (h : validate_mod_type mod_type = some e) : e.data ≠ [] := by
  simp only [validate_mod_type] at h
  split at h
  · injection h with he
    subst he
    exact append_data_ne_nil _ _ (append_data_ne_nil _ _ (append_data_ne_nil _ _ (by decide)))
  · exact absurd h (by simp)

theorem validate_version_tag_name_error_ne_nil {pe : String → Option String}
    {tag_name e : String} (h : validate_version_tag_name pe tag_name = some e) :
    e.data ≠ [] := by
  simp only [validate_version_tag_name] at h
  split at h
  · exact absurd h (by simp)
  · injection h with he
    subst he
    exact append_data_ne_nil _ _ (append_data_ne_nil _ _ (append_data_ne_nil _ _ (by decide)))

/-- Every validation error raised by `process_release` is reported through the
aggregated message: when the collected error list is nonempty, the function
returns exactly the aggregated validation error. -/
theorem process_release_eq_error (pe re : String → Option String) (repo : Repo)
    (raw : Manifest) (r : GitRelease)
    (h : release_validation_errors pe re raw r ≠ []) :
    process_release pe re repo raw r =
      Except.error (validation_error_message repo r.tag_name
        (release_validation_errors pe re raw r)) := by
  rcases hpak : find_pak_file r with e | a <;>
    cases htag : validate_tags raw.tags <;>
      cases hmt : validate_mod_type raw.mod_type <;>
        cases htn : validate_version_tag_name pe r.tag_name <;>
          cases hdep : validate_dependency_versions re raw.dependencies
  all_goals try have hp1 := pyTruthyOptStr_some_of_ne_nil (find_pak_file_error_ne_nil hpak)
  all_goals try have hp2 := pyTruthyOptStr_some_of_ne_nil (validate_tags_error_ne_nil htag)
  all_goals try have hp3 := pyTruthyOptStr_some_of_ne_nil (validate_mod_type_error_ne_nil hmt)
  all_goals try have hp4 :=
    pyTruthyOptStr_some_of_ne_nil (validate_version_tag_name_error_ne_nil htn)
  all_goals simp_all [process_release, release_validation_errors, pyTruthyOptStr]

/-- Membership of the pak error in the collected error list. -/
theorem pak_error_mem {pe re : String → Option String} {m : Manifest} {r : GitRelease}
    {e : String} (h : find_pak_file r = Except.error e) :
    e ∈ release_validation_errors pe re m r := by
  apply List.mem_append_left
  rw [List.mem_filterMap]
  exact ⟨some e, by simp [release_validation_errors, h], rfl⟩

/-- Membership of the tag-vocabulary error in the collected error list. -/
theorem tags_error_mem {pe re : String → Option String} {m : Manifest} {r : GitRelease}
    {e : String} (h : validate_tags m.tags = some e) :
    e ∈ release_validation_errors pe re m r := by
  apply List.mem_append_left
  rw [List.mem_filterMap]
  exact ⟨some e, by simp [release_validation_errors, h], rfl⟩

/-- Membership of the mod-type error in the collected error list. -/
theorem mod_type_error_mem {pe re : String → Option String} {m : Manifest} {r : GitRelease}
    {e : String} (h : validate_mod_type m.mod_type = some e) :
    e ∈ release_validation_errors pe re m r := by
  apply List.mem_append_left
  rw [List.mem_filterMap]
  exact ⟨some e, by simp [release_validation_errors, h], rfl⟩

/-- Membership of the semver tag error in the collected error list. -/
theorem tag_name_error_mem {pe re : String → Option String} {m : Manifest} {r : GitRelease}
    {e : String} (h : validate_version_tag_name pe r.tag_name = some e) :
    e ∈ release_validation_errors pe re m r := by
  apply List.mem_append_left
  rw [List.mem_filterMap]
  exact ⟨some e, by simp [release_validation_errors, h], rfl⟩

/-- Membership of every dependency error in the collected error list. -/
theorem dependency_error_mem {pe re : String → Option String} {m : Manifest} {r : GitRelease}
    {e : String} (h : e ∈ validate_dependency_versions re m.dependencies) :
    e ∈ release_validation_errors pe re m r := by
  unfold release_validation_errors
  exact List.mem_append_right _ h

/-- Every element of a list occurs contiguously in its separator join. -/
theorem joinSep_mem_mentions {sep : String} {l : List String} {e : String} (he : e ∈ l) :
    ∃ a b : List Char, (joinSep sep l).data = a ++ e.data ++ b := by
  induction l with
  | nil => cases he
  | cons x xs ih =>
    rcases List.mem_cons.mp he with h | h
    · subst h
      cases xs with
      | nil => exact ⟨[], [], by simp [joinSep]⟩
      | cons y ys =>
        refine ⟨[], (sep ++ joinSep sep (y :: ys)).data, ?_⟩
        simp [joinSep, String.data_append, List.append_assoc]
    · cases xs with
      | nil => cases h
      | cons y ys =>
        obtain ⟨a, b, hab⟩ := ih h
        refine ⟨(x ++ sep).data ++ a, b, ?_⟩
        simp [joinSep, String.data_append, hab, List.append_assoc]

/-- Every collected error message occurs verbatim inside the aggregated
validation error message. -/
theorem validation_error_message_mentions {repo : Repo} {tag_name : String}
    {errs : List String} {e : String} (he : e ∈ errs) :
    MentionsStr (validation_error_message repo tag_name errs) e := by
  obtain ⟨a, b, hab⟩ := @joinSep_mem_mentions "\n\t" errs e he
  refine ⟨("Mod manifest " ++ Repo.toStr repo ++ " " ++ tag_name
      ++ " failed validation: ").data ++ "\n\t".data ++ a, b, ?_⟩
  simp [validation_error_message, String.data_append, hab, List.append_assoc]

/-- The aggregated validation error message mentions the release tag. -/
theorem validation_error_message_mentions_tag (repo : Repo) (tag_name : String)
    (errs : List String) :
    MentionsStr (validation_error_message repo tag_name errs) tag_name := by
  refine ⟨("Mod manifest " ++ Repo.toStr repo ++ " ").data,
    (" failed validation: ").data ++ ("\n\t" ++ joinSep "\n\t" errs).data, ?_⟩
  simp [validation_error_message, String.data_append, List.append_assoc]

/-! ### C8, C9, C10: frame and failure behaviour of the registry operations -/

theorem ite_state_proj {α β γ : Type} (c : Prop) [Decidable c] (x y : α × β × γ) :
    (if c then x else y).2.1 = if c then x.2.1 else y.2.1 := by
  split <;> rfl

theorem ite_snd_proj {α β : Type} (c : Prop) [Decidable c] (x y : α × β) :
    (if c then x else y).2 = if c then x.2 else y.2 := by
  split <;> rfl

theorem ite_fst_proj {α β : Type} (c : Prop) [Decidable c] (x y : α × β) :
    (if c then x else y).1 = if c then x.1 else y.1 := by
  split <;> rfl

theorem add_package_dry_run_state (rt : Retriever) (s : RegistryState) (repos : List Repo) :
    (add_package rt s repos true).2.1 = s := by
  unfold add_package
  simp [ite_state_proj]

theorem remove_mods_dry_run_state (s : RegistryState) (repo_list : List Repo) :
    (remove_mods s repo_list true).2 = s := by
  simp [remove_mods]

theorem add_package_release_dry_run_state (rt : Retriever) (s : RegistryState)
    (repo : Repo) (release_tag : String) :
    (add_package_release rt s repo release_tag true).2.1 = s := by
  unfold add_package_release
  by_cases h1 : is_package_in_index s repo
  · cases h2 : load_mod s repo with
    | none => simp [h1, h2, add_package_dry_run_state]
    | some mod =>
      by_cases h3 : release_tag ∈ mod.releases.map (fun x => x.tag)
      · simp [h1, h2, h3]
      · cases h4 : rt.fetch_release_metadata mod release_tag with
        | none => simp [h1, h2, h3, h4]
        | some release => simp [h1, h2, h3, h4]
  · simp [h1]

theorem process_registry_updates_dry_run_state (rt : Retriever) (s : RegistryState) :
    (process_registry_updates rt s true).2.1 = s := by
  unfold process_registry_updates
  simp [ite_state_proj, ite_snd_proj, ite_fst_proj, add_package_dry_run_state,
    remove_mods_dry_run_state]

/-- C8: with the trial-run flag set, none of the four mutating operations
changes any persisted state: the whole `RegistryState` (declaration sources,
per-repo registry entries, redirect file, index file, package records and the
in-memory redirect table) is returned exactly as it was. -/
theorem C8_dry_run_suppresses_persistence (rt : Retriever) (s : RegistryState) :
    (∀ (repos : List Repo), (add_package rt s repos true).2.1 = s) ∧
    (∀ (repo : Repo) (release_tag : String),
      (add_package_release rt s repo release_tag true).2.1 = s) ∧
    (∀ (repo_list : List Repo), (remove_mods s repo_list true).2 = s) ∧
    (process_registry_updates rt s true).2.1 = s :=
  ⟨fun repos => add_package_dry_run_state rt s repos,
    fun repo tag => add_package_release_dry_run_state rt s repo tag,
    fun repo_list => remove_mods_dry_run_state s repo_list,
    process_registry_updates_dry_run_state rt s⟩

/-- Witness for C8 at a concrete registry state and batch. -/
theorem C8_dry_run_suppresses_persistence_witness :
    (add_package retriever0 stateEmpty [⟨"org", "repo"⟩] true).2.1 = stateEmpty :=
  (C8_dry_run_suppresses_persistence retriever0 stateEmpty).1 [⟨"org", "repo"⟩]

/-- C9: adding a release whose tag already exists on the stored mod of an
indexed repository is a no-op: the result is 0, the state (in particular the
stored record) is unchanged, and the retriever is never called. -/
theorem C9_duplicate_release_tag_noop (rt : Retriever) (s : RegistryState)
    (repo : Repo) (release_tag : String) (dry_run : Bool) (mod : Mod)
    (hidx : is_package_in_index s repo = true)
    (hload : load_mod s repo = some mod)
    (htag : release_tag ∈ mod.releases.map (·.tag)) :
    add_package_release rt s repo release_tag dry_run = (Except.ok 0, s, []) := by
  simp [add_package_release, hidx, hload, htag]

theorem length_filterMap_lt_of_none {α β : Type} (f : α → Option β) (l : List α)
    (x : α) (hx : x ∈ l) (hfx : f x = none) :
    (l.filterMap f).length < l.length := by
  induction l with
  | nil => cases hx
  | cons a as ih =>
    rcases List.mem_cons.mp hx with h | h
    · subst h
      rw [List.filterMap_cons, hfx]
      have := List.length_filterMap_le f as
      simp only [List.length_cons]
      omega
    · rw [List.filterMap_cons]
      cases hfa : f a with
      | none =>
        have := List.length_filterMap_le f as
        simp only [List.length_cons]
        omega
      | some b =>
        have := ih h
        simp only [List.length_cons]
        omega

/-- C10: `add_package` is all-or-nothing at the fetch stage: if the metadata
fetch comes back absent for at least one repository of the batch, the
operation returns 0 and the state is completely unchanged (no package record
and no registry entry is written for any repository of the batch); the only
retriever activity is the one metadata fetch per requested repository. -/
theorem C10_add_package_fetch_failure_writes_nothing (rt : Retriever) (s : RegistryState)
    (repos : List Repo) (dry_run : Bool)
    (hfail : ∃ repo ∈ repos, rt.fetch_repo_metadata repo = none) :
    add_package rt s repos dry_run = (0, s, repos.map FetchCall.repo) := by
  obtain ⟨repo, hmem, hnone⟩ := hfail
  unfold add_package
  have hlt : ((repos.map rt.fetch_repo_metadata).filterMap id).length < repos.length := by
    rw [List.filterMap_map]
    have := length_filterMap_lt_of_none (id ∘ rt.fetch_repo_metadata) repos repo hmem
      (by simpa using hnone)
    simpa using this
  rw [if_pos (by omega)]

/-- Witness for C9 at a concrete indexed repository whose stored mod already
has a release tagged `v1.0.0`. -/
theorem C9_duplicate_release_tag_noop_witness :
    add_package_release retriever0 state0 ⟨"testorg", "testrepo"⟩ "v1.0.0" false
      = (Except.ok 0, state0, []) :=
  C9_duplicate_release_tag_noop retriever0 state0 ⟨"testorg", "testrepo"⟩ "v1.0.0" false mod0
    (by decide) (by decide) (by decide)

/-- Witness for C10 at a concrete one-element batch whose fetch is absent. -/
theorem C10_add_package_fetch_failure_writes_nothing_witness :
    add_package retriever0 stateEmpty [⟨"org", "repo"⟩] false
      = (0, stateEmpty, [FetchCall.repo ⟨"org", "repo"⟩]) :=
  C10_add_package_fetch_failure_writes_nothing retriever0 stateEmpty [⟨"org", "repo"⟩] false
    ⟨⟨"org", "repo"⟩, List.mem_singleton.mpr rfl, rfl⟩

/-! ### C4: validation never short-circuits, errors aggregate -/

/-- C4: on a release violating more than one validation rule (at least two
collected error messages), `process_release` raises the single aggregated
validation error; every violated rule's message (pak uniqueness, tag
vocabulary, mod type, semver tag, every dependency range) is in the collected
list, and every collected message occurs verbatim inside the raised error. -/
theorem C4_no_short_circuit_error_aggregation
    (pe re : String → Option String) (repo : Repo) (raw : Manifest) (r : GitRelease)
    (h2 : 2 ≤ (release_validation_errors pe re raw r).length) :
    process_release pe re repo raw r =
        Except.error (validation_error_message repo r.tag_name
          (release_validation_errors pe re raw r)) ∧
      (∀ e, find_pak_file r = Except.error e → e ∈ release_validation_errors pe re raw r) ∧
      (∀ e, validate_tags raw.tags = some e → e ∈ release_validation_errors pe re raw r) ∧
      (∀ e, validate_mod_type raw.mod_type = some e →
        e ∈ release_validation_errors pe re raw r) ∧
      (∀ e, validate_version_tag_name pe r.tag_name = some e →
        e ∈ release_validation_errors pe re raw r) ∧
      (∀ e ∈ validate_dependency_versions re raw.dependencies,
        e ∈ release_validation_errors pe re raw r) ∧
      (∀ e ∈ release_validation_errors pe re raw r,
        MentionsStr (validation_error_message repo r.tag_name
          (release_validation_errors pe re raw r)) e) := by
  have hne : release_validation_errors pe re raw r ≠ [] := by
    intro hnil
    rw [hnil] at h2
    simp at h2
  exact ⟨process_release_eq_error pe re repo raw r hne,
    fun _ he => pak_error_mem he,
    fun _ he => tags_error_mem he,
    fun _ he => mod_type_error_mem he,
    fun _ he => tag_name_error_mem he,
    fun _ he => dependency_error_mem he,
    fun _ he => validation_error_message_mentions he⟩

/-- Witness for C4 at a release with no pak asset and a failing semver parse:
two rules are violated and the aggregated error is raised. -/
theorem C4_no_short_circuit_error_aggregation_witness :
    2 ≤ (release_validation_errors semverFailStub semverOkStub manifest0 ⟨"x", []⟩).length ∧
    process_release semverFailStub semverOkStub ⟨"org", "repo"⟩ manifest0 ⟨"x", []⟩ =
      Except.error (validation_error_message ⟨"org", "repo"⟩ "x"
        (release_validation_errors semverFailStub semverOkStub manifest0 ⟨"x", []⟩)) :=
  ⟨by decide,
    (C4_no_short_circuit_error_aggregation semverFailStub semverOkStub ⟨"org", "repo"⟩
      manifest0 ⟨"x", []⟩ (by decide)).1⟩

/-! ### C5: exactly one pak asset -/

/-- C5: a release with zero pak assets, and a release with two or more pak
assets, both fail ingestion, and the raised error message mentions the
release tag. -/
theorem C5_pak_asset_uniqueness
    (pe re : String → Option String) (repo : Repo) (raw : Manifest) (r : GitRelease)
    (h : (r.assets.filter (fun a => strEndsWithStr ".pak" a.name)).length = 0 ∨
      2 ≤ (r.assets.filter (fun a => strEndsWithStr ".pak" a.name)).length) :
    ∃ msg, process_release pe re repo raw r = Except.error msg ∧
      MentionsStr msg r.tag_name := by
  have hpak : ∃ e, find_pak_file r = Except.error e := by
    simp only [find_pak_file]
    rcases h with h0 | hmany
    · rw [if_pos h0]
      exact ⟨_, rfl⟩
    · rw [if_neg (by omega), if_pos (by omega)]
      exact ⟨_, rfl⟩
  obtain ⟨e, he⟩ := hpak
  have hne : release_validation_errors pe re raw r ≠ [] :=
    List.ne_nil_of_mem (@pak_error_mem pe re raw r e he)
  exact ⟨_, process_release_eq_error pe re repo raw r hne,
    validation_error_message_mentions_tag repo r.tag_name _⟩

/-- Witness for C5 at a release with zero pak assets. -/
theorem C5_pak_asset_uniqueness_witness :
    (([] : List GitAsset).filter (fun a => strEndsWithStr ".pak" a.name)).length = 0 ∧
    ∃ msg, process_release semverOkStub semverOkStub ⟨"org", "repo"⟩ manifest0
        ⟨"v1.0.0", []⟩ = Except.error msg ∧
      MentionsStr msg "v1.0.0" :=
  ⟨rfl, C5_pak_asset_uniqueness semverOkStub semverOkStub ⟨"org", "repo"⟩ manifest0
    ⟨"v1.0.0", []⟩ (Or.inl rfl)⟩

/-! ### C6: the leading "v" of a version tag -/

theorem stripLeadingV_v_append (t : String) : stripLeadingV ("v" ++ t) = t := by
  obtain ⟨l⟩ := t
  have h : ("v" ++ String.mk l).data = 'v' :: l := by
    rw [String.data_append]
    rfl
  unfold stripLeadingV
  rw [h]
  simp

theorem find_pak_file_ok_filter {r : GitRelease} {p : GitAsset}
    (h : find_pak_file r = Except.ok p) :
    r.assets.filter (fun a => strEndsWithStr ".pak" a.name) = [p] := by
  simp only [find_pak_file] at h
  split at h
  · exact absurd h (by simp)
  · split at h
    · exact absurd h (by simp)
    · next h0 h1 =>
      split at h
      · next q qs heq =>
        injection h with hqp
        rw [heq] at h0 h1
        have hqs : qs = [] := by
          simp only [List.length_cons] at h0 h1
          have := List.length_eq_zero.mp (by omega : qs.length = 0)
          exact this
        rw [heq, hqs, hqp]
      · next heq =>
        rw [heq] at h0
        simp at h0

/-- The success path of `process_release`: when the asset filter yields a
single pak and every other validation component is falsy, the function
returns the built release record. -/
theorem process_release_ok_of (pe re : String → Option String) (repo : Repo)
    (raw : Manifest) (tag : String) (as : List GitAsset) (p : GitAsset)
    (hfilter : as.filter (fun a => strEndsWithStr ".pak" a.name) = [p])
    (h1 : pyTruthyOptStr (validate_tags raw.tags) = false)
    (h2 : pyTruthyOptStr (validate_mod_type raw.mod_type) = false)
    (h3 : validate_dependency_versions re raw.dependencies = [])
    (h4 : pyTruthyOptStr (validate_version_tag_name pe tag) = false) :
    process_release pe re repo raw ⟨tag, as⟩ =
      Except.ok ⟨tag, p.content_hash, p.name, p.updated_at,
        { raw with repo_url := Repo.github_url repo }⟩ := by
  have hpak : find_pak_file ⟨tag, as⟩ = Except.ok p := by
    simp [find_pak_file, hfilter]
  simp [process_release, hpak, h1, h2, h3, h4,
    show pyTruthyOptStr none = false from rfl]

/-- Inversion of the success path of `process_release`. -/
theorem process_release_ok_inv (pe re : String → Option String) (repo : Repo)
    (raw : Manifest) (tag : String) (as : List GitAsset) (rel : Release)
    (h : process_release pe re repo raw ⟨tag, as⟩ = Except.ok rel) :
    ∃ p, as.filter (fun a => strEndsWithStr ".pak" a.name) = [p] ∧
      rel = ⟨tag, p.content_hash, p.name, p.updated_at,
        { raw with repo_url := Repo.github_url repo }⟩ ∧
      pyTruthyOptStr (validate_tags raw.tags) = false ∧
      pyTruthyOptStr (validate_mod_type raw.mod_type) = false ∧
      validate_dependency_versions re raw.dependencies = [] ∧
      pyTruthyOptStr (validate_version_tag_name pe tag) = false := by
  simp only [process_release] at h
  split at h
  · exact absurd h (by simp)
  · next hcond =>
    cases hpak : find_pak_file ⟨tag, as⟩ with
    | error e =>
      rw [hpak] at h
      exact absurd h (by simp)
    | ok p =>
      rw [hpak] at h
      injection h with hrel
      rw [hpak] at hcond
      simp only [Bool.or_eq_true, not_or, Bool.not_eq_true] at hcond
      obtain ⟨⟨⟨⟨-, hc2⟩, hc3⟩, hc4⟩, hc5⟩ := hcond
      refine ⟨p, find_pak_file_ok_filter hpak, hrel.symm, hc2, hc3, ?_, hc5⟩
      simpa using hc4

/-- C6 counterexample: two raw releases identical except for the leading `v`
of the tag both pass ingestion, but the produced `Release` records are not
equal — the stored `tag` field keeps the original tag string verbatim. -/
theorem C6_leading_v_counterexample :
    process_release semverAccepts123 semverOkStub ⟨"org", "repo"⟩ manifest0
        ⟨"v1.2.3", [asset6]⟩ =
      Except.ok ⟨"v1.2.3", "h", "a.pak", 5,
        { manifest0 with repo_url := "https://github.com/org/repo" }⟩ ∧
    process_release semverAccepts123 semverOkStub ⟨"org", "repo"⟩ manifest0
        ⟨"1.2.3", [asset6]⟩ =
      Except.ok ⟨"1.2.3", "h", "a.pak", 5,
        { manifest0 with repo_url := "https://github.com/org/repo" }⟩ ∧
    (⟨"v1.2.3", "h", "a.pak", 5,
        { manifest0 with repo_url := "https://github.com/org/repo" }⟩ : Release) ≠
      ⟨"1.2.3", "h", "a.pak", 5,
        { manifest0 with repo_url := "https://github.com/org/repo" }⟩ :=
  ⟨rfl, rfl, by decide⟩

/-- C6 amended: for two raw releases identical except that one's tag carries a
leading `v` (and the other's does not), ingestion validates them identically
(the semver tag check computes the same result) and they pass or fail
together; on success the produced records are equal in every field except
`tag`, which stores each release's original tag string verbatim. -/
theorem C6_leading_v_normalization_amended (pe re : String → Option String)
    (repo : Repo) (raw : Manifest) (t : String) (assets : List GitAsset)
    (ht : stripLeadingV t = t) :
    validate_version_tag_name pe ("v" ++ t) = validate_version_tag_name pe t ∧
    ((∃ rel, process_release pe re repo raw ⟨"v" ++ t, assets⟩ = Except.ok rel) ↔
      (∃ rel, process_release pe re repo raw ⟨t, assets⟩ = Except.ok rel)) ∧
    (∀ relV relP,
      process_release pe re repo raw ⟨"v" ++ t, assets⟩ = Except.ok relV →
      process_release pe re repo raw ⟨t, assets⟩ = Except.ok relP →
      relV = { relP with tag := "v" ++ t }) := by
  have htn : validate_version_tag_name pe ("v" ++ t) = validate_version_tag_name pe t := by
    unfold validate_version_tag_name
    rw [stripLeadingV_v_append, ht]
  refine ⟨htn, ?_, ?_⟩
  · constructor
    · rintro ⟨rel, hrel⟩
      obtain ⟨p, hf, -, h1, h2, h3, h4⟩ :=
        process_release_ok_inv pe re repo raw ("v" ++ t) assets rel hrel
      rw [htn] at h4
      exact ⟨_, process_release_ok_of pe re repo raw t assets p hf h1 h2 h3 h4⟩
    · rintro ⟨rel, hrel⟩
      obtain ⟨p, hf, -, h1, h2, h3, h4⟩ :=
        process_release_ok_inv pe re repo raw t assets rel hrel
      rw [← htn] at h4
      exact ⟨_, process_release_ok_of pe re repo raw ("v" ++ t) assets p hf h1 h2 h3 h4⟩
  · intro relV relP hV hP
    obtain ⟨p, hfV, hrelV, -, -, -, -⟩ :=
      process_release_ok_inv pe re repo raw ("v" ++ t) assets relV hV
    obtain ⟨q, hfP, hrelP, -, -, -, -⟩ :=
      process_release_ok_inv pe re repo raw t assets relP hP
    rw [hfV] at hfP
    injection hfP with hpq
    rw [hrelV, hrelP, hpq]

/-- Witness for the amended C6 at the concrete tag pair `v1.2.3` / `1.2.3`. -/
theorem C6_leading_v_normalization_amended_witness :
    stripLeadingV "1.2.3" = "1.2.3" ∧
    validate_version_tag_name semverAccepts123 ("v" ++ "1.2.3") =
      validate_version_tag_name semverAccepts123 "1.2.3" :=
  ⟨by decide,
    (C6_leading_v_normalization_amended semverAccepts123 semverOkStub ⟨"org", "repo"⟩
      manifest0 "1.2.3" [asset6] (by decide)).1⟩

end ZeroInfra
